import Mathlib

/-!
Verification development for the `http-route` repository.

The repository wraps an HTTP handler so that it only runs when a request
matches a declarative condition (method, mount prefix, exact path, or a
predicate), rewriting `req.url` / `req.params` for the duration of one
dispatch and restoring the saved fields when the handler signals completion.

This file is a shallow embedding of the routing core:

* JavaScript objects (the request, patches, snapshots) are association
  lists `List (String × JsValue)`.  JS objects never hold a key twice, so
  property update is modelled as remove-then-append and property lookup as
  last-occurrence lookup; on duplicate-free lists this coincides with JS
  semantics, and key enumeration order is never observed by any theorem.
* `createPathRE` (src/lib/condition.js) builds the regex
  `"^" + path.replace(/:([^/]+)/g, "([^/]+)")` (+ `"$"` when exact).
  It is embedded as token compilation (`compileAux`) plus an anchored
  backtracking matcher (`reMatchAux`) with greedy one-or-more-non-slash
  groups, which is the regex's preference order.  Literal template
  characters are taken verbatim (the source does not escape them either).
  This embedding is total, so it does not model the one error path of the
  source's eager compilation: a template whose literal part is invalid
  regex syntax (for example `"/("`) makes `new RegExp` throw a SyntaxError
  at route construction.  No theorem below quantifies over all templates
  in a way that depends on that error path; the concrete templates used
  are metacharacter-free.
* `connect.utils.parseUrl(req).pathname` is embedded as taking the part of
  `req.url` before any `?` or `#`.
* Mutation of the shared request object is embedded as explicit state
  passing: a condition evaluator is `JsObj → JsObj × JsValue` (the request
  after evaluation side effects, and the returned match value), and a
  handler is `JsObj → JsObj × Option String` (the request after the
  handler's own mutations, and the error it passes to its continuation).
-/

namespace HttpRoute

/-- A JavaScript value as far as this routing core observes it: strings,
booleans, `undefined`, and (shallow) objects. -/
inductive JsValue where
  | str : String → JsValue
  | bool : Bool → JsValue
  | undefined : JsValue
  | obj : List (String × JsValue) → JsValue

/-- A JavaScript object: an association list of own properties. -/
abbrev JsObj := List (String × JsValue)

/-- Property lookup (last occurrence wins; JS objects are duplicate-free,
so this agrees with JS property access). `none` means the property is
absent. -/
def getProp : JsObj → String → Option JsValue
  | [], _ => none
  | p :: rest, k =>
    match getProp rest k with
    | some v => some v
    | none => if p.1 == k then some p.2 else none

/-- Reading a property in JS: an absent property reads as `undefined`. -/
def propOrUndefined (o : JsObj) (k : String) : JsValue :=
  (getProp o k).getD .undefined

/-- Property assignment `o[k] = v`, modelled as appending the pair.  Since
`getProp` takes the last occurrence, this is observationally the JS
assignment for every property read; only the raw key enumeration could
tell the difference, and no definition or theorem below observes it. -/
def setProp (o : JsObj) (k : String) (v : JsValue) : JsObj :=
  o ++ [(k, v)]

/-- `Object.keys`. -/
def objectKeys (o : JsObj) : List String := o.map (·.1)

/-- `_.extend(a, b)`: copy every own property of `b` onto `a`. -/
def extendObj (a b : JsObj) : JsObj :=
  b.foldl (fun acc p => setProp acc p.1 p.2) a

/-- src/lib/extract.js `extractProperties`: a new object holding the values
of the given keys read from `object`, including missing properties (which
are recorded with the value `undefined`). -/
def extractProperties (object : JsObj) (keys : List String) : JsObj :=
  keys.foldl (fun props name => setProp props name (propOrUndefined object name)) []

/-- JS truthiness of the values a condition can return. -/
def truthyJs : JsValue → Bool
  | .str s => s ≠ ""
  | .bool b => b
  | .undefined => false
  | .obj _ => true

/-- The own properties of a match state: `Object.keys`/`_.extend` see the
properties of an object and nothing on a boolean. -/
def objPropsOf : JsValue → JsObj
  | .obj o => o
  | _ => []

/-- Read a value as a string (`undefined` and friends never reach the url
handling in the claims considered here). -/
def strOrEmpty : JsValue → String
  | .str s => s
  | _ => ""

/-! ### Path templates and matching

src/lib/condition.js `createPathRE` builds
`new RegExp("^" + path.replace(/:([^/]+)/g, "([^/]+)") + ("$" when exact))`
and records each `:name` in `re.keys`.  We compile the template into a
token list (literal characters and named one-or-more-non-slash groups) and
run an anchored backtracking matcher in the regex's greedy preference
order. -/

/-- One token of a compiled path template. -/
inductive PathToken where
  | lit : Char → PathToken
  | param : String → PathToken

/-- Tokenize a template, mirroring the global replace of `:([^/]+)`: a `:`
followed by a nonempty run of non-`/` characters becomes a named group;
everything else stays a literal character.  The second argument carries the
characters of the parameter name read so far (reversed), `none` outside a
parameter. -/
def compileAux : List Char → Option (List Char) → List PathToken
  | [], none => []
  | [], some acc =>
    if acc.isEmpty then [.lit ':'] else [.param (String.mk acc.reverse)]
  | c :: rest, none =>
    if c = ':' then compileAux rest (some []) else .lit c :: compileAux rest none
  | c :: rest, some acc =>
    if c = '/' then
      (if acc.isEmpty then [.lit ':'] else [.param (String.mk acc.reverse)]) ++
        .lit '/' :: compileAux rest none
    else
      compileAux rest (some (c :: acc))

/-- The compiled tokens of a template string. -/
def compileTemplate (path : String) : List PathToken :=
  compileAux path.toList none

/-- `re.keys`: the parameter names of the template, in order. -/
def templateKeys (tokens : List PathToken) : List String :=
  tokens.filterMap (fun t => match t with | .param n => some n | .lit _ => none)

/-- Anchored regex matching in backtracking preference order.  A `lit`
consumes exactly its character (case-insensitively when `ci` is set, for
the `"i"`-flagged regex of the part_002 revision); a `param` consumes a
nonempty run of non-`/` characters, longest first.  When `exact` is set the
whole input must be consumed (the `"$"` anchor).  Returns the number of
consumed characters and the captured groups. -/
def reMatchAux : List PathToken → List Char → Bool → Bool → Option (Nat × List (List Char))
  | [], s, exact, _ =>
    if exact && !s.isEmpty then none else some (0, [])
  | .lit _ :: _, [], _, _ => none
  | .lit c :: ts, c' :: rest, exact, ci =>
    if (if ci then c.toLower = c'.toLower else c = c') then
      (reMatchAux ts rest exact ci).map (fun p => (p.1 + 1, p.2))
    else none
  | .param _ :: ts, s, exact, ci =>
    let run := s.takeWhile (· ≠ '/')
    (List.range run.length).reverse.findSome? (fun i =>
      (reMatchAux ts (s.drop (i + 1)) exact ci).map
        (fun p => (i + 1 + p.1, s.take (i + 1) :: p.2)))

/-- src/lib/condition.js `normalizePath`: prepend `/` when missing (this
also turns the empty remainder into the root path `"/"`). -/
def normalizePath (path : String) : String :=
  match path.toList with
  | '/' :: _ => path
  | _ => "/" ++ path

/-- `connect.utils.parseUrl(req).pathname`: the part of the url before any
query or fragment. -/
def pathnameOf (url : String) : String :=
  String.mk (url.toList.takeWhile (fun c => c ≠ '?' ∧ c ≠ '#'))

/-! ### Condition evaluators

A condition evaluator takes the request and returns the (possibly mutated)
request together with the value the JS condition function returned:
`false`/`true` for method conditions, `false` or a state patch object for
path conditions. -/

/-- A condition function: request in, (request after side effects, returned
match value) out. -/
abbrev Evaluator := JsObj → JsObj × JsValue

/-- `_.object(keys, values)`: pair keys with values positionally into a
fresh object; a repeated key is assigned repeatedly, so its last occurrence
wins; missing values read as `undefined`. -/
def objectFromPairs : List String → List JsValue → JsObj → JsObj
  | [], _, acc => acc
  | k :: ks, [], acc => objectFromPairs ks [] (setProp acc k .undefined)
  | k :: ks, v :: vs, acc => objectFromPairs ks vs (setProp acc k v)

/-- src/lib/condition.js `createMethodCondition`: matches iff the request
method strictly equals the configured one; returns a boolean (never a
patch). -/
def createMethodCondition (method : String) : Evaluator :=
  fun req =>
    (req, .bool (match getProp req "method" with
      | some (.str s) => s == method
      | _ => false))

/-- src/lib/condition.js `createPathCondition` (the evaluator wired into
index.js): initializes `req.params` to `{}` when falsy — a side effect
that happens whether or not the path matches — then matches the compiled
template against the request pathname; on a match returns the patch
`{ url: normalizePath(remaining), params: _.extend({}, req.params, captured) }`.
Caveat: the source compiles `createPathRE`/`new RegExp` eagerly at
construction, which throws a SyntaxError for a template whose literal part
is invalid regex syntax (such as `"/("`); this total embedding has no such
error path, so no theorem asserts acceptance of arbitrary template
strings. -/
def createPathCondition (path : String) (exact : Bool) : Evaluator :=
  let tokens := compileTemplate (normalizePath path)
  let keys := templateKeys tokens
  fun req =>
    let req1 := if truthyJs (propOrUndefined req "params") then req
      else setProp req "params" (.obj [])
    let reqPath := pathnameOf (strOrEmpty (propOrUndefined req1 "url"))
    match reMatchAux tokens reqPath.toList exact false with
    | none => (req1, .bool false)
    | some (matchedLen, captures) =>
      let remaining := String.mk (reqPath.toList.drop matchedLen)
      let params := objectFromPairs keys (captures.map (fun c => .str (String.mk c))) []
      (req1, .obj [("url", .str (normalizePath remaining)),
        ("params", .obj (extendObj (extendObj [] (objPropsOf (propOrUndefined req1 "params"))) params))])

/-- src/lib/path.js `createPathCondition` (the revision that tags the
original url): no `params` initialization; on a match it first saves
`req.originalUrl = req.url` unless already set — the one side effect that
is written straight onto the request rather than into the patch — and then
returns the same `{ url, params }` patch. -/
def createPathConditionPathJs (path : String) (exact : Bool) : Evaluator :=
  let tokens := compileTemplate (normalizePath path)
  let keys := templateKeys tokens
  fun req =>
    let reqPath := pathnameOf (strOrEmpty (propOrUndefined req "url"))
    match reMatchAux tokens reqPath.toList exact false with
    | none => (req, .bool false)
    | some (matchedLen, captures) =>
      let req1 := if truthyJs (propOrUndefined req "originalUrl") then req
        else setProp req "originalUrl" (propOrUndefined req "url")
      let remaining := String.mk (reqPath.toList.drop matchedLen)
      let params := objectFromPairs keys (captures.map (fun c => .str (String.mk c))) []
      (req1, .obj [("url", .str (normalizePath remaining)),
        ("params", .obj (extendObj (extendObj [] (objPropsOf (propOrUndefined req1 "params"))) params))])

/-- src/unnamed/part_002 `matchURL`: the older router's matcher.  Its regex
carries the `"i"` flag, it does not normalize the remainder, and — unlike
every later revision — it rejects a match whose remainder does not start
with `/` ("Don't match a partial url path").  Returns the params object and
the remaining url, or `none` for no match. -/
def matchURL (path : String) (url : String) : Option (JsObj × String) :=
  let tokens := compileTemplate path
  let keys := templateKeys tokens
  match reMatchAux tokens url.toList false true with
  | none => none
  | some (matchedLen, captures) =>
    let remaining := String.mk (url.toList.drop matchedLen)
    if remaining.length ≠ 0 ∧ remaining.toList.head? ≠ some '/' then none
    else some (objectFromPairs keys (captures.map (fun c => .str (String.mk c))) [], remaining)

/-! ### Combining and parsing conditions (src/lib/condition.js) -/

/-- Run the evaluators in order, threading the request through their side
effects, collecting every returned state (`conditions.map(...)` in
`combineConditions`). -/
def evalConditions : List Evaluator → JsObj → JsObj × List JsValue
  | [], req => (req, [])
  | c :: cs, req =>
    let p := c req
    let q := evalConditions cs p.1
    (q.1, p.2 :: q.2)

/-- src/lib/merge.js `mergeObjects` as used on the collected states:
`_.extend({}, ...states)`.  Object states contribute their properties in
order; boolean states (from method conditions) have no own properties and
contribute nothing. -/
def mergeObjects (states : List JsValue) : JsObj :=
  states.foldl (fun acc s => match s with | .obj o => extendObj acc o | _ => acc) []

/-- src/lib/condition.js `combineConditions`: evaluate every condition
(all of them — `map` does not short-circuit), match iff every returned
state is truthy (`states.every(Boolean)`), and on a match merge the states
into a single patch; otherwise return `false`. -/
def combineConditions (conditions : List Evaluator) : Evaluator :=
  fun req =>
    let p := evalConditions conditions req
    if p.2.all truthyJs then (p.1, .obj (mergeObjects p.2)) else (p.1, .bool false)

/-- A structured condition object: the three recognized keys.  `none`
models an absent key; `some ""` is present but falsy, which the parser
skips just like an absent one. -/
structure CondObj where
  method : Option String
  mount : Option String
  path : Option String

/-- A condition specification as `createCondition` type-checks it:
a function, a string, an object, or any other value (a number, `null`, …)
for which `getConditionType` finds no type. -/
inductive CondSpec where
  | fn : Evaluator → CondSpec
  | str : String → CondSpec
  | obj : CondObj → CondSpec
  | otherValue : CondSpec

def HTTP_METHODS : List String :=
  ["HEAD", "GET", "POST", "PUT", "DELETE", "OPTIONS", "TRACE", "CONNECT"]

/-- JS truthiness of an optional string property of the condition object. -/
def truthyOptStr : Option String → Bool
  | some s => s ≠ ""
  | none => false

/-- src/lib/condition.js `parseConditionStringIntoObject`: empty strings
are an error; `"A B"` becomes `{method: A, path: B}`; a single recognized
method token becomes `{method: it}`; any other single token becomes
`{mount: it}`. -/
def parseConditionStringIntoObject (condition : String) : Except String CondObj :=
  if condition.length = 0 then .error "Condition string must not be empty"
  else
    let firstPart := String.mk (condition.toList.takeWhile (· ≠ ' '))
    let hasParts := condition.length > firstPart.length
    let rest := String.mk (condition.toList.drop (firstPart.length + 1))
    if hasParts then .ok ⟨some firstPart, none, some rest⟩
    else if HTTP_METHODS.contains firstPart then .ok ⟨some firstPart, none, none⟩
    else .ok ⟨none, some firstPart, none⟩

/-- src/lib/condition.js `parseConditionObject`: build the evaluators in
the fixed order method, mount, exact path — each only when the key is
truthy — and combine them.  An object with no truthy recognized key yields
`combineConditions []`, which matches every request. -/
def parseConditionObject (o : CondObj) : Evaluator :=
  let c1 := match o.method with
    | some m => if m ≠ "" then [createMethodCondition m] else []
    | none => []
  let c2 := match o.mount with
    | some m => if m ≠ "" then [createPathCondition m false] else []
    | none => []
  let c3 := match o.path with
    | some p => if p ≠ "" then [createPathCondition p true] else []
    | none => []
  combineConditions (c1 ++ c2 ++ c3)

/-- src/lib/condition.js `createCondition` (module export): functions pass
through unchanged; strings are parsed (empty string throws); objects are
parsed; any other value makes `getConditionType(condition).name` read a
property of `undefined`, a synchronous type error. -/
def createCondition : CondSpec → Except String Evaluator
  | .fn f => .ok f
  | .str s => (parseConditionStringIntoObject s).map parseConditionObject
  | .obj o => .ok (parseConditionObject o)
  | .otherValue => .error "TypeError: cannot read property name of undefined"

/-- The evaluator of a specification known to parse (used only at concrete,
successfully parsing specifications in the theorems below). -/
def evaluatorOf (s : CondSpec) : Evaluator :=
  match createCondition s with
  | .ok f => f
  | .error _ => fun req => (req, .bool false)

def isOkB : Except String α → Bool
  | .ok _ => true
  | .error _ => false

/-! ### Handler normalization (`createMiddleware`, src/lib/route.js /
part_003 — the module index.js loads as ./lib/middleware) -/

/-- A handler function in the pure embedding: the request after the
handler's own mutations, and the error it passes to its continuation (the
handler is taken to signal completion exactly once; see `dispatchEvents`
for the multiple/zero-invocation analysis). -/
abbrev HandlerFn := JsObj → JsObj × Option String

/-- The shapes `createMiddleware` probes for. -/
inductive HandlerTarget where
  | fn : HandlerFn → HandlerTarget
  | withHandle : HandlerFn → HandlerTarget
  | httpServer : HandlerFn → HandlerTarget
  | missing : HandlerTarget
  | otherShape : HandlerTarget

/-- `createMiddleware`: a falsy handler throws "No handler given"; a
function passes through; an object with a `handle` method is wrapped; an
`http.Server` is unwrapped to its request listener; anything else throws
"Not a handler". -/
def createMiddleware : HandlerTarget → Except String HandlerFn
  | .missing => .error "No handler given"
  | .fn h => .ok h
  | .withHandle h => .ok (fun req => h req)
  | .httpServer h => .ok h
  | .otherShape => .error "Not a handler"

/-! ### The route orchestrator (src/index.js `createRoute`) -/

/-- The handler returned by `createRoute(condition, app)`, with a caller
continuation supplied: evaluate the condition; on no match call the
continuation; on a match snapshot the request fields named in the patch
(`extract(req, Object.keys(state))`), overlay the patch
(`_.extend(req, state)`), run the wrapped handler, and when it completes
restore the snapshot (`_.extend(req, prevState)`) before passing its error
outward. -/
def routeHandler (conditionFn : Evaluator) (handle : HandlerFn) : HandlerFn :=
  fun req =>
    let p := conditionFn req
    if truthyJs p.2 then
      let state := objPropsOf p.2
      let stateKeys := objectKeys state
      let prevState := extractProperties p.1 stateKeys
      let q := handle (extendObj p.1 state)
      (extendObj q.1 prevState, q.2)
    else (p.1, none)

/-- A response, as far as src/unnamed/part_001 `send404` writes one. -/
structure HttpRes where
  status : Nat
  contentType : Option String
  body : Option String

/-- src/unnamed/part_001 (lib/404.js) `send404`: status 404, Content-Type
text/plain, body "Not Found" — except a HEAD request, which gets
`res.end(null)`, no body. -/
def send404 (req : JsObj) (_res : HttpRes) : HttpRes :=
  ⟨404,
    some "text/plain",
    if strOrEmpty (propOrUndefined req "method") = "HEAD" then none else some "Not Found"⟩

/-- The outcome of one dispatch of the `createRoute` handler. -/
inductive RouteOutcome where
  | nexted : JsObj → Option String → RouteOutcome
  | response : JsObj → HttpRes → RouteOutcome

/-- src/index.js dispatch including the default continuation:
`next = next || send404.bind(null, req, res)`.  When no continuation was
supplied, the terminal step renders the 404 response against the request
as it stands when the continuation fires. -/
def routeDispatch (conditionFn : Evaluator) (handle : HandlerFn)
    (req : JsObj) (res : HttpRes) (hasNext : Bool) : RouteOutcome :=
  let p := conditionFn req
  if truthyJs p.2 then
    let state := objPropsOf p.2
    let prevState := extractProperties p.1 (objectKeys state)
    let q := handle (extendObj p.1 state)
    let req4 := extendObj q.1 prevState
    if hasNext then .nexted req4 q.2 else .response req4 (send404 req4 res)
  else
    if hasNext then .nexted p.1 none else .response p.1 (send404 p.1 res)

/-! ### The dispatch event trace

For the temporal claim we record the order of the observable steps of one
matched dispatch of the src/index.js closure.  The wrapped handler's
behavior is abstracted to the list of arguments it passes to its completion
continuation, one entry per invocation (possibly empty: a handler that
never signals).  Per the source, the continuation's body is
`_.extend(req, prevState); next(err);` — a restore followed by the outer
continuation — executed on every invocation, with no double-invocation
guard. -/

inductive RouteEv where
  | applyPatch : RouteEv
  | invokeHandler : RouteEv
  | restorePatch : RouteEv
  | callNext : Option String → RouteEv
deriving BEq, DecidableEq

/-- The event trace of one dispatch: on a match, the patch is applied, the
handler invoked, and then each invocation of the inner continuation runs a
restore followed by the outer continuation; on no match the outer
continuation is called directly. -/
def dispatchEvents (matched : Bool) (innerCalls : List (Option String)) : List RouteEv :=
  if matched then
    .applyPatch :: .invokeHandler ::
      innerCalls.foldr (fun e acc => .restorePatch :: .callNext e :: acc) []
  else [.callNext none]

/-- Every restore event is immediately followed by a call of the outer
continuation. -/
def restoresPaired : List RouteEv → Bool
  | [] => true
  | .restorePatch :: .callNext _ :: rest => restoresPaired rest
  | .restorePatch :: _ => false
  | _ :: rest => restoresPaired rest

/-- How many times the restore step runs in a trace. -/
def countRestores : List RouteEv → Nat
  | [] => 0
  | .restorePatch :: rest => countRestores rest + 1
  | _ :: rest => countRestores rest


/-! ### Observation helpers used by the theorems -/

/-- Reference lookup over a list of condition states: the value a key gets
after merging, namely the value from the last object state that carries the
key. -/
def statesLookup : List JsValue → String → Option JsValue
  | [], _ => none
  | s :: rest, k =>
    match statesLookup rest k with
    | some v => some v
    | none => match s with | .obj o => getProp o k | _ => none

/-- Read a parameter out of the `params` property of a returned patch. -/
def patchParamStr (state : JsValue) (k : String) : Option String :=
  match state with
  | .obj props =>
    match getProp props "params" with
    | some (.obj ps) =>
      match getProp ps k with
      | some (.str v) => some v
      | _ => none
    | _ => none
  | _ => none

/-- A handler that records the `url` and `originalUrl` it observes into
fresh request fields (which no patch touches, so they survive the
restores), like the assertions inside the repository's test handlers. -/
def probeHandler : HandlerFn :=
  fun req =>
    (setProp (setProp req "seenUrl" (propOrUndefined req "url"))
      "seenOriginalUrl" (propOrUndefined req "originalUrl"), none)

/-! ### Basic association-list lemmas -/

/-- first-from-the-right lookup distributes over append. -/
theorem getProp_append (a b : JsObj) (k : String) :
    getProp (a ++ b) k = match getProp b k with
      | some v => some v
      | none => getProp a k := by
  induction a with
  | nil =>
    simp only [List.nil_append]
    cases h : getProp b k <;> simp [getProp, h]
  | cons p rest ih =>
    have hcons : getProp ((p :: rest) ++ b) k =
        match getProp (rest ++ b) k with
        | some v => some v
        | none => if p.1 == k then some p.2 else none := rfl
    rw [hcons, ih]
    cases h1 : getProp b k <;> cases h2 : getProp rest k <;> simp [getProp, h2]

theorem getProp_setProp_self (o : JsObj) (k : String) (v : JsValue) :
    getProp (setProp o k v) k = some v := by
  rw [setProp, getProp_append]
  simp [getProp]

theorem getProp_setProp_ne (o : JsObj) (k k' : String) (v : JsValue) (h : k' ≠ k) :
    getProp (setProp o k v) k' = getProp o k' := by
  rw [setProp, getProp_append]
  simp [getProp, beq_iff_eq, Ne.symm h]

/-- Lookup in `_.extend(a, b)`: properties of `b` win, `a` fills the rest. -/
theorem getProp_extendObj (b a : JsObj) (k : String) :
    getProp (extendObj a b) k = match getProp b k with
      | some v => some v
      | none => getProp a k := by
  induction b generalizing a with
  | nil => rfl
  | cons p rest ih =>
    simp only [extendObj, List.foldl_cons] at *
    rw [ih (setProp a p.1 p.2)]
    simp only [getProp]
    cases getProp rest k with
    | some v => simp
    | none =>
      by_cases hk : p.1 = k
      · subst hk; simp [getProp_setProp_self]
      · simp only [beq_iff_eq, hk, if_false]
        exact getProp_setProp_ne a p.1 k p.2 (fun hh => hk hh.symm)

/-- Lookup in an extracted snapshot: a snapshotted key reads back the value
it had in the source object (absent recorded as `undefined`). -/
theorem getProp_extract_aux (keys : List String) (object : JsObj) (acc : JsObj) (k : String) :
    getProp (keys.foldl (fun props name => setProp props name (propOrUndefined object name)) acc) k =
      if k ∈ keys then some (propOrUndefined object k) else getProp acc k := by
  induction keys generalizing acc with
  | nil => simp
  | cons name rest ih =>
    simp only [List.foldl_cons, ih (setProp acc name (propOrUndefined object name))]
    by_cases hr : k ∈ rest
    · simp [hr, List.mem_cons]
    · by_cases hn : k = name
      · subst hn
        simp [hr, getProp_setProp_self]
      · simp only [List.mem_cons, hn, hr, or_self, if_false, false_or]
        exact getProp_setProp_ne acc name k (propOrUndefined object name) hn

theorem getProp_extractProperties (object : JsObj) (keys : List String) (k : String) :
    getProp (extractProperties object keys) k =
      if k ∈ keys then some (propOrUndefined object k) else none := by
  rw [extractProperties, getProp_extract_aux]
  rfl

/-! ### Lemmas about condition combination and the route pipeline -/

/-- The request that leaves `combineConditions` is the one threaded through
every evaluator in order — no evaluator is skipped, whatever the earlier
results were. -/
theorem evalConditions_fst (conditions : List Evaluator) (req : JsObj) :
    (evalConditions conditions req).1 = conditions.foldl (fun r c => (c r).1) req := by
  induction conditions generalizing req with
  | nil => rfl
  | cons c cs ih => simp only [evalConditions, List.foldl_cons, ih]

theorem getProp_mergeObjects_aux (states : List JsValue) (acc : JsObj) (k : String) :
    getProp (states.foldl (fun a s => match s with | .obj o => extendObj a o | _ => a) acc) k =
      match statesLookup states k with
      | some v => some v
      | none => getProp acc k := by
  induction states generalizing acc with
  | nil => rfl
  | cons s rest ih =>
    simp only [List.foldl_cons, statesLookup]
    cases s with
    | obj o =>
      rw [ih (extendObj acc o), getProp_extendObj]
      cases h1 : statesLookup rest k <;> cases h2 : getProp o k <;> simp [h1, h2]
    | str v => rw [ih acc]; cases h1 : statesLookup rest k <;> simp [h1]
    | bool b => rw [ih acc]; cases h1 : statesLookup rest k <;> simp [h1]
    | undefined => rw [ih acc]; cases h1 : statesLookup rest k <;> simp [h1]

/-- Lookup in the merged states: the last object state carrying the key
wins. -/
theorem getProp_mergeObjects (states : List JsValue) (k : String) :
    getProp (mergeObjects states) k = statesLookup states k := by
  rw [mergeObjects, getProp_mergeObjects_aux]
  cases statesLookup states k <;> rfl

/-- `combineConditions` on a single condition. -/
theorem combineConditions_single (c : Evaluator) (req : JsObj) :
    combineConditions [c] req =
      ((c req).1,
        if truthyJs (c req).2 then .obj (mergeObjects [(c req).2]) else .bool false) := by
  have h : evalConditions [c] req = ((c req).1, [(c req).2]) := rfl
  unfold combineConditions
  rw [h]
  simp only [List.all_cons, List.all_nil, Bool.and_true]
  split <;> rename_i hb <;> simp [hb]

/-- A path condition evaluator returns either `false` or a patch object of
exactly the shape `{ url: ..., params: ... }`. -/
theorem pathCondition_shape (tpl : String) (exact : Bool) (req : JsObj) :
    (createPathCondition tpl exact req).2 = .bool false
    ∨ ∃ u pv, (createPathCondition tpl exact req).2 = .obj [("url", u), ("params", pv)] := by
  unfold createPathCondition
  split <;> dsimp only <;> split <;>
    first
      | (left; rfl)
      | (right; exact ⟨_, _, rfl⟩)

theorem trace_foldr_facts (calls : List (Option String)) :
    countRestores (calls.foldr (fun e acc => RouteEv.restorePatch :: RouteEv.callNext e :: acc) [])
      = calls.length
    ∧ restoresPaired (calls.foldr (fun e acc => RouteEv.restorePatch :: RouteEv.callNext e :: acc) [])
      = true := by
  induction calls with
  | nil => exact ⟨rfl, rfl⟩
  | cons e rest ih =>
    refine ⟨?_, ?_⟩
    · simp only [List.foldr_cons, countRestores, ih.1, List.length_cons]
    · simp only [List.foldr_cons, restoresPaired, ih.2]

/-! ## The claims -/

/-- Claim C3, counterexample: in src/lib/condition.js the non-exact (mount)
path condition has no `/`-boundary check: the request path `/foobar` DOES
match the mount pattern `/foo`, producing a patch whose rewritten path is
the slash-normalized remainder `/bar` — the claim's universally quantified
no-match behavior fails on the wired matcher. -/
theorem mount_boundary_counterexample :
    truthyJs ((createPathCondition "/foo" false) [("url", .str "/foobar")]).2 = true
    ∧ getProp (objPropsOf ((createPathCondition "/foo" false) [("url", .str "/foobar")]).2) "url"
      = some (.str "/bar") := ⟨rfl, rfl⟩

/-- Claim C3, amended: only src/unnamed/part_002's `matchURL` treats a
suffix off a `/` boundary as no match (`/foobar` does not match `/foo`
there, while `/foo/bar` does); the path conditions of src/lib/condition.js
perform no boundary check, so `/foobar` matches the mount `/foo` with the
remainder normalized to `/bar`. -/
theorem mount_boundary_amended :
    matchURL "/foo" "/foobar" = none
    ∧ (matchURL "/foo" "/foo/bar").isSome = true
    ∧ truthyJs ((createPathCondition "/foo" false) [("url", .str "/foobar")]).2 = true
    ∧ getProp (objPropsOf ((createPathCondition "/foo" false) [("url", .str "/foobar")]).2) "url"
      = some (.str "/bar") := ⟨rfl, rfl, rfl, rfl⟩

/-- Claim C4, counterexample: a condition object with none of the
recognized keys is not a configuration error — `createCondition` accepts
it and the resulting condition (zero evaluators combined) matches every
request, here a concrete GET request, with an empty patch. -/
theorem empty_object_spec_accepted :
    isOkB (createCondition (.obj ⟨none, none, none⟩)) = true
    ∧ (parseConditionObject ⟨none, none, none⟩) [("method", .str "GET"), ("url", .str "/x")]
      = ([("method", .str "GET"), ("url", .str "/x")], .obj []) := ⟨rfl, rfl⟩

/-- Claim C4, amended: route construction raises errors synchronously for
an empty condition string, for condition values that are neither function,
string nor object, and for missing or unrecognized handler targets; but an
object spec with no truthy recognized key is accepted without error and
yields a condition that matches every request with an empty patch.  (The
source has one further synchronous construction error this embedding does
not model: a template whose literal part is invalid regex syntax, such as
`"/("`, makes `new RegExp` in `createPathRE` throw; the token matcher here
is total, so no statement about all non-empty strings is made.) -/
theorem construction_error_behavior :
    isOkB (createCondition (.str "")) = false
    ∧ isOkB (createCondition .otherValue) = false
    ∧ isOkB (createMiddleware .missing) = false
    ∧ isOkB (createMiddleware .otherShape) = false
    ∧ (∀ o : CondObj, truthyOptStr o.method = false → truthyOptStr o.mount = false →
        truthyOptStr o.path = false →
        ∀ req : JsObj, parseConditionObject o req = (req, .obj [])) := by
  refine ⟨rfl, rfl, rfl, rfl, ?_⟩
  intro o h1 h2 h3 req
  obtain ⟨om, omt, op⟩ := o
  unfold parseConditionObject
  dsimp only at h1 h2 h3 ⊢
  cases om with
  | some m =>
    simp only [truthyOptStr] at h1
    rw [decide_eq_false_iff_not, not_not] at h1
    subst h1
    cases omt with
    | some m2 =>
      simp only [truthyOptStr] at h2
      rw [decide_eq_false_iff_not, not_not] at h2
      subst h2
      cases op with
      | some p =>
        simp only [truthyOptStr] at h3
        rw [decide_eq_false_iff_not, not_not] at h3
        subst h3
        rfl
      | none => rfl
    | none =>
      cases op with
      | some p =>
        simp only [truthyOptStr] at h3
        rw [decide_eq_false_iff_not, not_not] at h3
        subst h3
        rfl
      | none => rfl
  | none =>
    cases omt with
    | some m2 =>
      simp only [truthyOptStr] at h2
      rw [decide_eq_false_iff_not, not_not] at h2
      subst h2
      cases op with
      | some p =>
        simp only [truthyOptStr] at h3
        rw [decide_eq_false_iff_not, not_not] at h3
        subst h3
        rfl
      | none => rfl
    | none =>
      cases op with
      | some p =>
        simp only [truthyOptStr] at h3
        rw [decide_eq_false_iff_not, not_not] at h3
        subst h3
        rfl
      | none => rfl

/-- Claim C4, witness for the amended theorem: a concrete object whose only
present key is falsy yields the always-matching empty-patch condition on a
concrete request. -/
theorem construction_error_behavior_witness :
    parseConditionObject ⟨none, some "", none⟩ [("url", .str "/q")]
      = ([("url", .str "/q")], .obj []) :=
  construction_error_behavior.2.2.2.2 ⟨none, some "", none⟩ rfl (by decide) rfl
    [("url", .str "/q")]

/-- Claim C5, counterexample: when the wrapped handler invokes its inner
continuation twice, the dispatch trace of src/index.js runs the restore
step twice, not exactly once as the claim states — there is no
double-invocation guard. -/
theorem restore_not_once_on_double_invocation :
    countRestores (dispatchEvents true [none, none]) = 2
    ∧ ¬ countRestores (dispatchEvents true [none, none]) = 1 := by decide

/-- Claim C5, amended: on a matched dispatch the overlay is applied before
the handler is invoked, and each invocation of the inner continuation runs
exactly one restore immediately followed by the outer continuation — so
restore fires once per inner-continuation invocation (zero times when the
handler never signals, twice when it signals twice), not once per
dispatch. -/
theorem restore_once_per_inner_invocation (innerCalls : List (Option String)) :
    countRestores (dispatchEvents true innerCalls) = innerCalls.length
    ∧ (dispatchEvents true innerCalls).head? = some .applyPatch
    ∧ ((dispatchEvents true innerCalls).drop 1).head? = some .invokeHandler
    ∧ restoresPaired (dispatchEvents true innerCalls) = true
    ∧ countRestores (dispatchEvents false innerCalls) = 0 := by
  have hd : dispatchEvents true innerCalls = .applyPatch :: .invokeHandler ::
      innerCalls.foldr (fun e acc => RouteEv.restorePatch :: RouteEv.callNext e :: acc) [] := rfl
  refine ⟨?_, ?_, ?_, ?_, rfl⟩
  · rw [hd]
    simp only [countRestores]
    exact (trace_foldr_facts innerCalls).1
  · rw [hd]; rfl
  · rw [hd]; rfl
  · rw [hd]
    simp only [restoresPaired]
    exact (trace_foldr_facts innerCalls).2

/-- Claim C6 (confirmed): when the condition does not match and no
continuation was supplied, the dispatch emits the default terminal
response: status 404, Content-Type text/plain, and body "Not Found" except
for a HEAD request, which gets no body. -/
theorem no_match_default_404 (conditionFn : Evaluator) (handle : HandlerFn)
    (req : JsObj) (res : HttpRes)
    (hnm : truthyJs (conditionFn req).2 = false) :
    routeDispatch conditionFn handle req res false =
      .response (conditionFn req).1
        ⟨404, some "text/plain",
          if strOrEmpty (propOrUndefined (conditionFn req).1 "method") = "HEAD" then none
          else some "Not Found"⟩ := by
  unfold routeDispatch send404
  dsimp only
  rw [hnm]
  simp

/-- Claim C6, witness: a GET-only route receiving a POST request with no
continuation produces the 404 text/plain "Not Found" response, and the
same route receiving a HEAD request produces the 404 response with no
body. -/
theorem no_match_default_404_witness :
    routeDispatch (evaluatorOf (.str "GET")) (fun r => (r, none))
        [("method", .str "POST"), ("url", .str "/")] ⟨200, none, none⟩ false
      = .response [("method", .str "POST"), ("url", .str "/")]
          ⟨404, some "text/plain", some "Not Found"⟩
    ∧ routeDispatch (evaluatorOf (.str "GET")) (fun r => (r, none))
        [("method", .str "HEAD"), ("url", .str "/")] ⟨200, none, none⟩ false
      = .response [("method", .str "HEAD"), ("url", .str "/")]
          ⟨404, some "text/plain", none⟩ := by
  constructor
  · rw [no_match_default_404 (evaluatorOf (.str "GET")) (fun r => (r, none))
      [("method", .str "POST"), ("url", .str "/")] ⟨200, none, none⟩ rfl]
    rfl
  · rw [no_match_default_404 (evaluatorOf (.str "GET")) (fun r => (r, none))
      [("method", .str "HEAD"), ("url", .str "/")] ⟨200, none, none⟩ rfl]
    rfl

/-- Claim C7 (confirmed): matching the template `/users/:id/:key/:id`
against `/users/1/address/2` yields a params patch in which the repeated
name `id` holds the LAST captured occurrence `"2"` (the second `:id`
overwrites the first) and `key` holds `"address"`. -/
theorem repeated_param_last_capture_wins :
    patchParamStr ((createPathCondition "/users/:id/:key/:id" false)
      [("method", .str "GET"), ("url", .str "/users/1/address/2")]).2 "id" = some "2"
    ∧ patchParamStr ((createPathCondition "/users/:id/:key/:id" false)
      [("method", .str "GET"), ("url", .str "/users/1/address/2")]).2 "key" = some "address" :=
  ⟨rfl, rfl⟩

/-- Claim C9 (confirmed): applying a patch over the request and then
overlaying the snapshot that was extracted before the apply returns every
field the patch touched to its pre-apply value, as measured by reading
those fields (a field that was absent reads as `undefined` both before and
after, per the extract/extend representation the source itself notes). -/
theorem apply_restore_roundtrip (req patch : JsObj) (k : String)
    (hk : k ∈ objectKeys patch) :
    propOrUndefined (extendObj (extendObj req patch)
        (extractProperties req (objectKeys patch))) k
      = propOrUndefined req k := by
  unfold propOrUndefined
  rw [getProp_extendObj, getProp_extractProperties]
  simp [hk, propOrUndefined]

/-- Claim C9, witness: concrete round trip over a request with `url`
present and `zz` absent, for a patch touching both. -/
theorem apply_restore_roundtrip_witness :
    propOrUndefined (extendObj (extendObj [("url", JsValue.str "/a")]
        [("url", JsValue.str "/b"), ("zz", JsValue.str "q")])
        (extractProperties [("url", JsValue.str "/a")]
          (objectKeys [("url", JsValue.str "/b"), ("zz", JsValue.str "q")]))) "url"
      = propOrUndefined [("url", JsValue.str "/a")] "url"
    ∧ propOrUndefined (extendObj (extendObj [("url", JsValue.str "/a")]
        [("url", JsValue.str "/b"), ("zz", JsValue.str "q")])
        (extractProperties [("url", JsValue.str "/a")]
          (objectKeys [("url", JsValue.str "/b"), ("zz", JsValue.str "q")]))) "zz"
      = propOrUndefined [("url", JsValue.str "/a")] "zz" :=
  ⟨apply_restore_roundtrip _ _ "url" (by decide),
   apply_restore_roundtrip _ _ "zz" (by decide)⟩

/-- Claim C1, counterexample: `params` is named in the applied patch and IS
restored — dispatching `route("/users/:id", handler)` on `/users/7`, after
the handler completes the request's `params` is back to the initialized
empty object captured in the snapshot, not the cumulative `{id: "7"}` the
claim's exception clause promises. -/
theorem params_restored_counterexample :
    getProp (routeHandler (evaluatorOf (.str "/users/:id")) (fun r => (r, none))
        [("method", .str "GET"), ("url", .str "/users/7")]).1 "params"
      = some (.obj [])
    ∧ ¬ getProp (routeHandler (evaluatorOf (.str "/users/:id")) (fun r => (r, none))
        [("method", .str "GET"), ("url", .str "/users/7")]).1 "params"
      = some (.obj [("id", .str "7")]) := by
  have h1 : getProp (routeHandler (evaluatorOf (.str "/users/:id")) (fun r => (r, none))
      [("method", .str "GET"), ("url", .str "/users/7")]).1 "params"
      = some (.obj []) := rfl
  refine ⟨h1, ?_⟩
  rw [h1]
  simp

/-- Claim C1, amended: after the wrapped handler signals completion, the
Route restores EVERY request field named in the applied patch — `params`
included — to its snapshot value (the value it had after condition
evaluation and before the patch was applied); fields not named in the
patch, such as the `originalUrl` tag, are left exactly as the handler's
run left them, which is the only way any condition side effect survives
the dispatch. -/
theorem route_restores_every_patch_field (conditionFn : Evaluator) (handle : HandlerFn)
    (req : JsObj) (k : String)
    (hmatch : truthyJs (conditionFn req).2 = true) :
    (k ∈ objectKeys (objPropsOf (conditionFn req).2) →
      getProp (routeHandler conditionFn handle req).1 k
        = some (propOrUndefined (conditionFn req).1 k))
    ∧ (k ∉ objectKeys (objPropsOf (conditionFn req).2) →
      getProp (routeHandler conditionFn handle req).1 k
        = getProp (handle (extendObj (conditionFn req).1 (objPropsOf (conditionFn req).2))).1 k) := by
  have hroute : routeHandler conditionFn handle req =
      (extendObj (handle (extendObj (conditionFn req).1 (objPropsOf (conditionFn req).2))).1
        (extractProperties (conditionFn req).1 (objectKeys (objPropsOf (conditionFn req).2))),
       (handle (extendObj (conditionFn req).1 (objPropsOf (conditionFn req).2))).2) := by
    unfold routeHandler
    dsimp only
    rw [hmatch]
    simp
  constructor
  · intro hk
    rw [hroute]
    dsimp only
    rw [getProp_extendObj, getProp_extractProperties]
    simp [hk]
  · intro hk
    rw [hroute]
    dsimp only
    rw [getProp_extendObj, getProp_extractProperties]
    simp [hk]

/-- Claim C1, witness for the amended theorem: for the matched route
`/users/:id` on `/users/7`, the patch field `params` comes back to its
snapshot value (the initialized empty object), while the non-patch field
`extra` written by the handler survives the restore. -/
theorem route_restores_every_patch_field_witness :
    getProp (routeHandler (evaluatorOf (.str "/users/:id"))
        (fun r => (setProp r "extra" (.str "E"), none))
        [("method", .str "GET"), ("url", .str "/users/7")]).1 "params"
      = some (propOrUndefined ((evaluatorOf (.str "/users/:id"))
        [("method", .str "GET"), ("url", .str "/users/7")]).1 "params")
    ∧ getProp (routeHandler (evaluatorOf (.str "/users/:id"))
        (fun r => (setProp r "extra" (.str "E"), none))
        [("method", .str "GET"), ("url", .str "/users/7")]).1 "extra"
      = getProp ((fun (r : JsObj) => (setProp r "extra" (JsValue.str "E"), (none : Option String)))
          (extendObj ((evaluatorOf (.str "/users/:id"))
            [("method", .str "GET"), ("url", .str "/users/7")]).1
            (objPropsOf ((evaluatorOf (.str "/users/:id"))
              [("method", .str "GET"), ("url", .str "/users/7")]).2))).1 "extra" :=
  ⟨(route_restores_every_patch_field (evaluatorOf (.str "/users/:id"))
      (fun r => (setProp r "extra" (.str "E"), none))
      [("method", .str "GET"), ("url", .str "/users/7")] "params" rfl).1 (by decide),
   (route_restores_every_patch_field (evaluatorOf (.str "/users/:id"))
      (fun r => (setProp r "extra" (.str "E"), none))
      [("method", .str "GET"), ("url", .str "/users/7")] "extra" rfl).2 (by decide)⟩

/-- Claim C2 (the repository's own README and tests assert the claim, the
wired code drops it): dispatching the nested routes built by
`createRoute("/foo", createRoute("/bar", handler))` through src/index.js +
src/lib/condition.js on a request for `/foo/bar`, the innermost handler
observes `url = "/"` but `originalUrl` still `undefined` — lib/condition.js
never tags it.  Substituting lib/path.js's `createPathCondition` (the
revision carrying the tagging, which the claim and test/mount.js describe)
yields `originalUrl = "/foo/bar"`, set by the outer route and not
overwritten by the inner one. -/
theorem originalUrl_dropped_by_wired_pipeline :
    getProp ((routeHandler (evaluatorOf (.str "/foo"))
        (routeHandler (evaluatorOf (.str "/bar")) probeHandler))
        [("method", .str "GET"), ("url", .str "/foo/bar")]).1 "seenUrl"
      = some (.str "/")
    ∧ getProp ((routeHandler (evaluatorOf (.str "/foo"))
        (routeHandler (evaluatorOf (.str "/bar")) probeHandler))
        [("method", .str "GET"), ("url", .str "/foo/bar")]).1 "seenOriginalUrl"
      = some .undefined
    ∧ getProp ((routeHandler (combineConditions [createPathConditionPathJs "/foo" false])
        (routeHandler (combineConditions [createPathConditionPathJs "/bar" false]) probeHandler))
        [("method", .str "GET"), ("url", .str "/foo/bar")]).1 "seenUrl"
      = some (.str "/")
    ∧ getProp ((routeHandler (combineConditions [createPathConditionPathJs "/foo" false])
        (routeHandler (combineConditions [createPathConditionPathJs "/bar" false]) probeHandler))
        [("method", .str "GET"), ("url", .str "/foo/bar")]).1 "seenOriginalUrl"
      = some (.str "/foo/bar") := ⟨rfl, rfl, rfl, rfl⟩

/-- Claim C8 (confirmed): `combineConditions` threads the request through
every evaluator unconditionally — the final request state is the fold of
all the evaluators' side effects, with no short-circuit on an earlier
no-match; the overall value is the merged patch exactly when every state
is truthy and `false` otherwise (discarding any patches); and lookup in
the merged patch returns the value from the last object state carrying the
key — later evaluators overwrite earlier ones. -/
theorem combine_runs_all_and_merges_in_order (conditions : List Evaluator) (req : JsObj) :
    (combineConditions conditions req).1 = conditions.foldl (fun r c => (c r).1) req
    ∧ ((evalConditions conditions req).2.all truthyJs = true →
        (combineConditions conditions req).2 = .obj (mergeObjects (evalConditions conditions req).2))
    ∧ ((evalConditions conditions req).2.all truthyJs = false →
        (combineConditions conditions req).2 = .bool false)
    ∧ (∀ k, getProp (mergeObjects (evalConditions conditions req).2) k
        = statesLookup (evalConditions conditions req).2 k) := by
  refine ⟨?_, ?_, ?_, fun k => getProp_mergeObjects _ k⟩
  · unfold combineConditions
    dsimp only
    split <;> exact evalConditions_fst conditions req
  · intro h
    unfold combineConditions
    dsimp only
    rw [h]
    simp
  · intro h
    unfold combineConditions
    dsimp only
    rw [h]
    simp

/-- Claim C8, witness: a failed method condition does not stop the path
condition behind it from running — its `params`-initialization side effect
lands on the request even though the overall result is `false` and the
path condition's patch is discarded. -/
theorem combine_runs_all_and_merges_in_order_witness :
    getProp ((combineConditions [createMethodCondition "POST", createPathCondition "/x" false])
        [("method", .str "GET"), ("url", .str "/x")]).1 "params"
      = some (.obj [])
    ∧ ((combineConditions [createMethodCondition "POST", createPathCondition "/x" false])
        [("method", .str "GET"), ("url", .str "/x")]).2
      = .bool false := by
  have h := combine_runs_all_and_merges_in_order
    [createMethodCondition "POST", createPathCondition "/x" false]
    [("method", .str "GET"), ("url", .str "/x")]
  constructor
  · rw [h.1]
    rfl
  · exact h.2.2.1 rfl

/-- Claim C10 (confirmed): a route built from a mount or path condition
initializes `params` during condition evaluation itself: a request without
a `params` field gets `params = {}` whether or not the path matches, and
this initialization survives the whole dispatch — on a no-match because
nothing is restored, on a match because the snapshot is taken after the
initialization, so restore writes the initialized empty object back. -/
theorem params_initialized_during_evaluation (tpl : String) (exact : Bool)
    (req : JsObj) (hp : getProp req "params" = none) :
    getProp ((combineConditions [createPathCondition tpl exact]) req).1 "params"
      = some (.obj [])
    ∧ ∀ handle : HandlerFn,
      getProp (routeHandler (combineConditions [createPathCondition tpl exact]) handle req).1
        "params" = some (.obj []) := by
  have h0 : truthyJs (propOrUndefined req "params") = false := by
    rw [propOrUndefined, hp]
    rfl
  have hc : getProp ((createPathCondition tpl exact) req).1 "params" = some (.obj []) := by
    unfold createPathCondition
    dsimp only
    rw [h0]
    simp only [Bool.false_eq_true, if_false]
    split <;> exact getProp_setProp_self req "params" (.obj [])
  have hfst : (combineConditions [createPathCondition tpl exact] req).1
      = (createPathCondition tpl exact req).1 := by
    rw [combineConditions_single]
  refine ⟨by rw [hfst]; exact hc, ?_⟩
  intro handle
  rcases pathCondition_shape tpl exact req with hS | ⟨u, pv, hS⟩
  · have hcomb : combineConditions [createPathCondition tpl exact] req
        = ((createPathCondition tpl exact req).1, .bool false) := by
      rw [combineConditions_single, hS]
      rfl
    unfold routeHandler
    dsimp only
    rw [hcomb]
    dsimp only
    simp only [truthyJs, Bool.false_eq_true, if_false]
    exact hc
  · have hcomb : combineConditions [createPathCondition tpl exact] req
        = ((createPathCondition tpl exact req).1, .obj [("url", u), ("params", pv)]) := by
      rw [combineConditions_single, hS]
      rfl
    unfold routeHandler
    dsimp only
    rw [hcomb]
    dsimp only
    simp only [truthyJs, if_true]
    rw [getProp_extendObj, getProp_extractProperties]
    have hmem : "params" ∈ objectKeys (objPropsOf (JsValue.obj [("url", u), ("params", pv)])) := by
      simp [objectKeys, objPropsOf]
    rw [if_pos hmem]
    dsimp only
    rw [propOrUndefined, hc]
    rfl

/-- Claim C10, witness: a request with no `params` against the mount
condition `/foo` and a url that does not match — `params` is the
initialized empty object after evaluation and still after the dispatch. -/
theorem params_initialized_during_evaluation_witness :
    getProp ((combineConditions [createPathCondition "/foo" false])
        [("url", .str "/zzz")]).1 "params" = some (.obj [])
    ∧ getProp (routeHandler (combineConditions [createPathCondition "/foo" false])
        (fun r => (r, none)) [("url", .str "/zzz")]).1 "params" = some (.obj []) :=
  ⟨(params_initialized_during_evaluation "/foo" false [("url", .str "/zzz")] rfl).1,
   (params_initialized_during_evaluation "/foo" false [("url", .str "/zzz")] rfl).2
     (fun r => (r, none))⟩

end HttpRoute
